import Mathlib

/-!
Shallow embedding of `deployment/server/controlnet/1/sampler.py`
(NeMo-Framework-Launcher controlnet deployment sampler).

Modelling conventions:
* Tensors are modeled elementwise by exact rationals (`ℚ`): every tensor
  operation appearing in the source (`+`, `-`, `*`, `/`, broadcasting of the
  per-index coefficients) acts pointwise, so a single scalar faithfully tracks
  one coordinate of the computation.
* The denoising model (`self.model.infer`), the control model
  (`self.control_model.infer`), `q_sample`, `torch.randn`, `noise_like`,
  `dropout`, `sqrt` and `log` are external collaborators (spec section 6); they
  are modeled as oracle functions bundled in `Services`.
* Randomness (`noise_like`, `torch.randn`) is modeled by an oracle stream
  `Services.noise : ℕ → ℚ` consumed sequentially: the k-th draw of a run is
  `noise k`.  The running draw count is part of the instrumentation trace.
* Python `assert`/`raise` failures are modeled with `Except Err`; each
  function returns its result together with a `Trace` counting the external
  calls actually performed before returning (so "error raised before the
  model is invoked" is statable as a zero count in the error case).
-/

namespace ControlNetSampler

/-- The two sampler kinds of the `Sampler` enum (`Sampler = Enum("Sampler", ["PLMS", "DDIM"])`). -/
inductive SamplerKind
  | PLMS
  | DDIM
deriving DecidableEq

/-- The fatal error conditions of the source (Python `assert` / `raise`). -/
inductive Err
  /-- `assert x0 is not None` in `sampling_fn` (line 213). -/
  | maskWithoutX0
  /-- `assert len(control_scales) == len(control)` in `apply_model` (line 335). -/
  | controlScalesMismatch
  /-- `assert self.model.parameterization == "eps"` in `_get_model_output` (line 267). -/
  | parameterizationNotEps
  /-- `raise ValueError("ddim_eta must be 0 for PLMS")` in `PLMSSampler.make_schedule` (line 354). -/
  | etaNonzeroForPLMS
  /-- `assert alphas_cumprod.shape[0] == self.ddpm_num_timesteps` in `make_schedule` (line 62). -/
  | alphasLengthMismatch
deriving DecidableEq

/-- Instrumentation: counts of external calls made by a piece of the program.
Fields in order: `self.model.infer` calls, `self.control_model.infer` calls,
`apply_model` invocations, `_get_model_output` invocations, `noise_like` draws. -/
structure Trace where
  denoiserCalls : ℕ
  controlCalls : ℕ
  applyModelCalls : ℕ
  evaluatorCalls : ℕ
  noiseDraws : ℕ
deriving DecidableEq

def Trace.zero : Trace := ⟨0, 0, 0, 0, 0⟩

instance : Add Trace :=
  ⟨fun a b => ⟨a.denoiserCalls + b.denoiserCalls, a.controlCalls + b.controlCalls,
    a.applyModelCalls + b.applyModelCalls, a.evaluatorCalls + b.evaluatorCalls,
    a.noiseDraws + b.noiseDraws⟩⟩

theorem Trace.add_def (a b : Trace) :
    a + b = ⟨a.denoiserCalls + b.denoiserCalls, a.controlCalls + b.controlCalls,
      a.applyModelCalls + b.applyModelCalls, a.evaluatorCalls + b.evaluatorCalls,
      a.noiseDraws + b.noiseDraws⟩ := rfl

/-- The model parameterization attribute checked by the score-corrector branch. -/
inductive Parameterization
  | eps
  | other
deriving DecidableEq

/-- A conditioning dict: cross-attention context (`c_crossattn`) and the optional
structural hint (`c_concat`), both modeled elementwise. -/
structure Cond where
  c_crossattn : ℚ
  c_concat : Option ℚ
deriving DecidableEq

/-- The control model's raw `infer` result: a named-output dictionary.  `entries i`
is the value stored under key `control_i` (if present); `size` is `len(control_out)`
(the dict holds inputs as well as outputs, hence the probing loop in the source). -/
structure ControlOut where
  entries : ℕ → Option ℚ
  size : ℕ

/-- Per-index coefficient tables used by `_get_x_prev_and_pred_x0`
(alphas, alphas_prev, sqrt-one-minus-alphas, sigmas). -/
structure CoeffTables where
  alphas : ℕ → ℚ
  alphas_prev : ℕ → ℚ
  sqrt_one_minus_alphas : ℕ → ℚ
  sigmas : ℕ → ℚ

/-- External collaborators (spec section 6), as oracle functions. -/
structure Services where
  /-- `self.model.infer(args)["logits"]`: (x, t, context, control signals in
  positional order) ↦ logits.  An empty control list models the no-hint argument set. -/
  modelLogits : ℚ → ℕ → ℚ → List ℚ → ℚ
  /-- `self.control_model.infer`: (x, t, context, hint) ↦ named-output dict. -/
  controlInfer : ℚ → ℕ → ℚ → ℚ → ControlOut
  /-- `self.model.q_sample(x0, ts)`: forward-noising of known pixels. -/
  q_sample : ℚ → ℕ → ℚ
  /-- `self.model.parameterization`. -/
  parameterization : Parameterization
  /-- `torch.sqrt` / `np.sqrt`, as an oracle on exact rationals. -/
  sqrt : ℚ → ℚ
  /-- `np.log`, as an oracle on exact rationals. -/
  log : ℚ → ℚ
  /-- the stream of `noise_like` samples: draw number k of the run is `noise k`. -/
  noise : ℕ → ℚ
  /-- `torch.nn.functional.dropout` as an oracle attenuation (applied only when
  `noise_dropout > 0`). -/
  dropout : ℚ → ℚ
  /-- `torch.randn(shape)` used when no `x_T` is supplied. -/
  randn : ℚ
  /-- `self.model.alphas_cumprod`, `self.model.alphas_cumprod_prev`,
  `self.model.sqrt_one_minus_alphas_cumprod`,
  `self.model.ddim_sigmas_for_original_num_steps` — the model-object tables
  selected when `use_original_steps` is true. -/
  modelCoeffs : CoeffTables

/-- The probing loop of `apply_model` (lines 327-332): collect `control_0`,
`control_1`, ... in order, stopping at the first missing index; the loop bound
is `len(control_out)`. -/
def probeControls (entries : ℕ → Option ℚ) : ℕ → ℕ → List ℚ
  | _, 0 => []
  | i, fuel + 1 =>
    match entries i with
    | some v => v :: probeControls entries (i + 1) fuel
    | none => []

/-- `AbstractBaseSampler.apply_model` (lines 305-345).  Returns the logits and a
trace of the external calls performed (the trace of the error case shows the
assert fires after the control model ran but before the denoising model ran). -/
def apply_model (S : Services) (x : ℚ) (t : ℕ) (cond : Cond)
    (control_scales : Option (List ℚ)) : Except Err ℚ × Trace :=
  match cond.c_concat with
  | none => (.ok (S.modelLogits x t cond.c_crossattn []), ⟨1, 0, 1, 0, 0⟩)
  | some hint =>
    let control_out := S.controlInfer x t cond.c_crossattn hint
    let control := probeControls control_out.entries 0 control_out.size
    match control_scales with
    | none => (.ok (S.modelLogits x t cond.c_crossattn control), ⟨1, 1, 1, 0, 0⟩)
    | some scales =>
      if scales.length = control.length then
        (.ok (S.modelLogits x t cond.c_crossattn
          (List.zipWith (fun cv sc => cv * sc) control scales)), ⟨1, 1, 1, 0, 0⟩)
      else
        (.error .controlScalesMismatch, ⟨0, 1, 1, 0, 0⟩)

/-- The guidance composition of `_get_model_output` (lines 259-265): one
`apply_model` call when the unconditional conditioning is absent or the scale is
1.0, otherwise two calls composed as `uncond + scale * (cond - uncond)`. -/
def guidance_branch (S : Services) (x : ℚ) (t : ℕ)
    (unconditional_conditioning : Option Cond) (unconditional_guidance_scale : ℚ)
    (c : Cond) (control_scales : Option (List ℚ)) : Except Err ℚ × Trace :=
  match unconditional_conditioning with
  | none => apply_model S x t c control_scales
  | some uc =>
    if unconditional_guidance_scale = 1 then
      apply_model S x t c control_scales
    else
      match apply_model S x t c control_scales with
      | (.error e, tr1) => (.error e, tr1)
      | (.ok model_t, tr1) =>
        match apply_model S x t uc control_scales with
        | (.error e, tr2) => (.error e, tr1 + tr2)
        | (.ok model_uncond, tr2) =>
          (.ok (model_uncond + unconditional_guidance_scale * (model_t - model_uncond)),
            tr1 + tr2)

/-- `AbstractBaseSampler._get_model_output` (lines 248-269): the guided denoise
evaluator — the guidance composition followed by the optional score-corrector
pass (which requires the epsilon parameterization).  The corrector is modeled as
an optional function of (e_t, x, t, c), mirroring
`score_corrector.modify_score(self.model, e_t, x, t, c, ...)`.  Its trace marks
one evaluator invocation plus whatever the `apply_model` calls did. -/
def get_model_output (S : Services) (x : ℚ) (t : ℕ)
    (unconditional_conditioning : Option Cond) (unconditional_guidance_scale : ℚ)
    (score_corrector : Option (ℚ → ℚ → ℕ → Cond → ℚ)) (c : Cond)
    (control_scales : Option (List ℚ)) : Except Err ℚ × Trace :=
  let mark : Trace := ⟨0, 0, 0, 1, 0⟩
  match guidance_branch S x t unconditional_conditioning unconditional_guidance_scale c
      control_scales with
  | (.error e, tr) => (.error e, mark + tr)
  | (.ok e_t, tr) =>
    match score_corrector with
    | none => (.ok e_t, mark + tr)
    | some f =>
      if S.parameterization = .eps then (.ok (f e_t x t c), mark + tr)
      else (.error .parameterizationNotEps, mark + tr)

/-- `AbstractBaseSampler._get_x_prev_and_pred_x0` (lines 271-303): the shared
reconstruction sub-step.  `noiseIdx` is the index of the `noise_like` draw this
call consumes (its trace records one draw). -/
def get_x_prev_and_pred_x0 (S : Services) (ddimCoeffs : CoeffTables)
    (use_original_steps : Bool) (index : ℕ) (x e_t : ℚ)
    (temperature noise_dropout : ℚ) (noiseIdx : ℕ) : (ℚ × ℚ) × Trace :=
  let T := if use_original_steps then S.modelCoeffs else ddimCoeffs
  let a_t := T.alphas index
  let a_prev := T.alphas_prev index
  let sigma_t := T.sigmas index
  let sqrt_one_minus_at := T.sqrt_one_minus_alphas index
  let pred_x0 := (x - sqrt_one_minus_at * e_t) / S.sqrt a_t
  let dir_xt := S.sqrt (1 - a_prev - sigma_t ^ 2) * e_t
  let noise0 := sigma_t * S.noise noiseIdx * temperature
  let noise := if 0 < noise_dropout then S.dropout noise0 else noise0
  let x_prev := S.sqrt a_prev * pred_x0 + dir_xt + noise
  ((x_prev, pred_x0), ⟨0, 0, 0, 0, 1⟩)

/-- Python negative indexing on a list: `l[-k]` is `l[len(l) - k]`. -/
def pyNeg (l : List ℚ) (k : ℕ) : ℚ := l.getD (l.length - k) 0

/-- `PLMSSampler.p_sampling_fn` (lines 357-436).  `noiseIdx` is the number of
`noise_like` draws already consumed by the run when this step starts. -/
def plms_p_sampling_fn (S : Services) (ddimCoeffs : CoeffTables)
    (x : ℚ) (c : Cond) (t : ℕ) (index : ℕ) (use_original_steps : Bool)
    (temperature noise_dropout : ℚ)
    (score_corrector : Option (ℚ → ℚ → ℕ → Cond → ℚ))
    (unconditional_guidance_scale : ℚ) (unconditional_conditioning : Option Cond)
    (old_eps : List ℚ) (t_next : ℕ) (control_scales : Option (List ℚ))
    (noiseIdx : ℕ) : Except Err (ℚ × ℚ × ℚ) × Trace :=
  match get_model_output S x t unconditional_conditioning unconditional_guidance_scale
      score_corrector c control_scales with
  | (.error e, tr) => (.error e, tr)
  | (.ok e_t, tr0) =>
    -- select the combined derivative estimate by the history depth (lines 388-421)
    let combined : Except Err ℚ × Trace :=
      if old_eps.length = 0 then
        -- Pseudo Improved Euler (2nd order): provisional reconstruction + lookahead
        let pr := get_x_prev_and_pred_x0 S ddimCoeffs use_original_steps index x e_t
          temperature noise_dropout noiseIdx
        match get_model_output S pr.1.1 t_next unconditional_conditioning
            unconditional_guidance_scale score_corrector c control_scales with
        | (.error e, tr1) => (.error e, pr.2 + tr1)
        | (.ok e_t_next, tr1) => (.ok ((e_t + e_t_next) / 2), pr.2 + tr1)
      else if old_eps.length = 1 then
        -- 2nd order Pseudo Linear Multistep (Adams-Bashforth)
        (.ok ((3 * e_t - pyNeg old_eps 1) / 2), Trace.zero)
      else if old_eps.length = 2 then
        -- 3rd order Pseudo Linear Multistep (Adams-Bashforth)
        (.ok ((23 * e_t - 16 * pyNeg old_eps 1 + 5 * pyNeg old_eps 2) / 12), Trace.zero)
      else
        -- 4th order Pseudo Linear Multistep (Adams-Bashforth), len(old_eps) >= 3
        (.ok ((55 * e_t - 59 * pyNeg old_eps 1 + 37 * pyNeg old_eps 2 - 9 * pyNeg old_eps 3) / 24),
          Trace.zero)
    match combined with
    | (.error e, tr1) => (.error e, tr0 + tr1)
    | (.ok e_t_prime, tr1) =>
      let pr2 := get_x_prev_and_pred_x0 S ddimCoeffs use_original_steps index x e_t_prime
        temperature noise_dropout (noiseIdx + tr1.noiseDraws)
      (.ok (pr2.1.1, pr2.1.2, e_t), tr0 + tr1 + pr2.2)

/-- `DDIMSampler.p_sampling_fn` (lines 443-477). -/
def ddim_p_sampling_fn (S : Services) (ddimCoeffs : CoeffTables)
    (x : ℚ) (c : Cond) (t : ℕ) (index : ℕ) (use_original_steps : Bool)
    (temperature noise_dropout : ℚ)
    (score_corrector : Option (ℚ → ℚ → ℕ → Cond → ℚ))
    (unconditional_guidance_scale : ℚ) (unconditional_conditioning : Option Cond)
    (control_scales : Option (List ℚ)) (noiseIdx : ℕ) : Except Err (ℚ × ℚ) × Trace :=
  match get_model_output S x t unconditional_conditioning unconditional_guidance_scale
      score_corrector c control_scales with
  | (.error e, tr) => (.error e, tr)
  | (.ok e_t, tr0) =>
    let pr := get_x_prev_and_pred_x0 S ddimCoeffs use_original_steps index x e_t
      temperature noise_dropout noiseIdx
    (.ok (pr.1.1, pr.1.2), tr0 + pr.2)

/-- The inpainting blend of `sampling_fn` (line 215):
`img = img_orig * mask + (1. - mask) * img`. -/
def maskBlend (img_orig m img : ℚ) : ℚ := img_orig * m + (1 - m) * img

/-- The driver's history update (lines 236-238):
`old_eps.append(e_t)` then `if len(old_eps) >= 4: old_eps.pop(0)`. -/
def historyUpdate (old_eps : List ℚ) (e_t : ℚ) : List ℚ :=
  let l := old_eps ++ [e_t]
  if 4 ≤ l.length then l.tail else l

/-- The keyword arguments of `sampling_fn` that stay fixed over the loop. -/
structure SamplingParams where
  kind : SamplerKind
  cond : Cond
  x_T : Option ℚ
  ddim_use_original_steps : Bool
  /-- the optional `timesteps` argument (a step count) of `sampling_fn`. -/
  timestepsArg : Option ℕ
  mask : Option ℚ
  x0 : Option ℚ
  log_every_t : ℕ
  temperature : ℚ
  noise_dropout : ℚ
  score_corrector : Option (ℚ → ℚ → ℕ → Cond → ℚ)
  unconditional_guidance_scale : ℚ
  unconditional_conditioning : Option Cond
  control_scales : Option (List ℚ)

/-- The mutable state threaded through the sampling loop, together with ghost
instrumentation: `allEts` logs every raw derivative estimate ever appended to
the history, and `integratorInputs` logs the state handed to each
`p_sampling_fn` call. -/
structure LoopState where
  img : ℚ
  old_eps : List ℚ
  allEts : List ℚ
  integratorInputs : List ℚ
  x_inter : List ℚ
  pred_x0_log : List ℚ
  trace : Trace
deriving DecidableEq

/-- The intermediate-logging step (lines 243-245). -/
def logIntermediates (ps : SamplingParams) (total_steps index : ℕ) (pred_x0 : ℚ)
    (st : LoopState) : LoopState :=
  if index % ps.log_every_t = 0 ∨ index = total_steps - 1 then
    { st with x_inter := st.x_inter ++ [st.img], pred_x0_log := st.pred_x0_log ++ [pred_x0] }
  else st

/-- The `p_sampling_fn` dispatch plus state update of one loop iteration
(lines 216-245): record the integrator input, call the variant matching the
sampler kind, update `img` and (PLMS only) the history. -/
def driver_integrate (S : Services) (dc : CoeffTables) (ps : SamplingParams)
    (total_steps index step ts_next : ℕ) (st : LoopState) : LoopState × Option Err :=
  match ps.kind with
  | .PLMS =>
    match plms_p_sampling_fn S dc st.img ps.cond step index ps.ddim_use_original_steps
        ps.temperature ps.noise_dropout ps.score_corrector ps.unconditional_guidance_scale
        ps.unconditional_conditioning st.old_eps ts_next ps.control_scales
        st.trace.noiseDraws with
    | (.error e, tr) =>
      ({ st with
          integratorInputs := st.integratorInputs ++ [st.img]
          trace := st.trace + tr }, some e)
    | (.ok (x_prev, pred_x0, e_t), tr) =>
      (logIntermediates ps total_steps index pred_x0
        { st with
          img := x_prev
          integratorInputs := st.integratorInputs ++ [st.img]
          trace := st.trace + tr
          old_eps := historyUpdate st.old_eps e_t
          allEts := st.allEts ++ [e_t] }, none)
  | .DDIM =>
    match ddim_p_sampling_fn S dc st.img ps.cond step index ps.ddim_use_original_steps
        ps.temperature ps.noise_dropout ps.score_corrector ps.unconditional_guidance_scale
        ps.unconditional_conditioning ps.control_scales st.trace.noiseDraws with
    | (.error e, tr) =>
      ({ st with
          integratorInputs := st.integratorInputs ++ [st.img]
          trace := st.trace + tr }, some e)
    | (.ok (x_prev, pred_x0), tr) =>
      (logIntermediates ps total_steps index pred_x0
        { st with
          img := x_prev
          integratorInputs := st.integratorInputs ++ [st.img]
          trace := st.trace + tr }, none)

/-- One iteration of the sampling loop (lines 202-245): index bookkeeping, the
inpainting assert and blend (lines 212-215, the assert precedes the blend), then
the integrator sub-step. -/
def driver_iteration (S : Services) (dc : CoeffTables) (ps : SamplingParams)
    (time_range : List ℕ) (total_steps i step : ℕ) (st : LoopState) :
    LoopState × Option Err :=
  let index := total_steps - i - 1
  let ts_next := time_range.getD (min (i + 1) (time_range.length - 1)) 0
  match ps.mask with
  | none => driver_integrate S dc ps total_steps index step ts_next st
  | some m =>
    match ps.x0 with
    | none => (st, some .maskWithoutX0)
    | some x0v =>
      let img_orig := S.q_sample x0v step
      driver_integrate S dc ps total_steps index step ts_next
        { st with img := maskBlend img_orig m st.img }

/-- The sampling loop of `sampling_fn`, iterating `driver_iteration` over the
enumerated reversed time range; a raised error aborts the run. -/
def sampling_loop (S : Services) (dc : CoeffTables) (ps : SamplingParams)
    (time_range : List ℕ) (total_steps : ℕ) :
    List ℕ → ℕ → LoopState → LoopState × Option Err
  | [], _, st => (st, none)
  | step :: rest, i, st =>
    match driver_iteration S dc ps time_range total_steps i step st with
    | (st', some e) => (st', some e)
    | (st', none) => sampling_loop S dc ps time_range total_steps rest (i + 1) st'

/-- Python `int(...)` (truncation toward zero) on an exact rational. -/
def pyInt (q : ℚ) : ℤ := if 0 ≤ q then ⌊q⌋ else -⌊-q⌋

/-- Python slicing `l[:e]` with a possibly negative end index. -/
def pySliceTo (l : List ℕ) (e : ℤ) : List ℕ :=
  if 0 ≤ e then l.take e.toNat else l.take (l.length - (-e).toNat)

/-- The `timesteps` normalization of `sampling_fn` (lines 188-192), returning the
ascending sequence of timesteps to traverse (the loop then walks its reverse):
absent ⇒ the full plan (or `range(ddpm_num_timesteps)` in original-steps mode);
present with original-steps off ⇒ re-slice the already-built plan by proportion,
`subset_end = int(min(timesteps / len(plan), 1) * len(plan)) - 1`. -/
def effectiveTimesteps (ddim_timesteps : List ℕ) (ddpm_num_timesteps : ℕ)
    (timestepsArg : Option ℕ) (use_original_steps : Bool) : List ℕ :=
  match timestepsArg with
  | none => if use_original_steps then List.range ddpm_num_timesteps else ddim_timesteps
  | some n' =>
    if use_original_steps then List.range n'
    else
      let n : ℕ := ddim_timesteps.length
      let subset_end : ℤ := pyInt (min ((n' : ℚ) / (n : ℚ)) 1 * (n : ℚ)) - 1
      pySliceTo ddim_timesteps subset_end

/-- `AbstractBaseSampler.sampling_fn` (lines 160-246): initialize the state from
`x_T` (or a fresh normal draw), build the traversal order, and run the loop. -/
def sampling_fn (S : Services) (dc : CoeffTables) (ddim_timesteps : List ℕ)
    (ps : SamplingParams) : LoopState × Option Err :=
  let img0 := match ps.x_T with | none => S.randn | some xT => xT
  let ts := effectiveTimesteps ddim_timesteps 1000 ps.timestepsArg ps.ddim_use_original_steps
  let time_range := ts.reverse
  let total_steps := ts.length
  let st0 : LoopState := ⟨img0, [], [], [], [img0], [img0], Trace.zero⟩
  sampling_loop S dc ps time_range total_steps time_range 0 st0

/-! ### Schedule construction

The helpers `make_ddim_timesteps`, `make_beta_schedule` and
`make_ddim_sampling_parameters` live in this directory's `utils` module, which
is not under `src/`; they are modelled from the spec below. -/

/-- Modelled from the spec: numpy `linspace(a, b, k)` (k evenly spaced points,
endpoints included), used by the missing `utils` module. -/
def linspace (a b : ℚ) (k : ℕ) : List ℚ :=
  (List.range k).map fun (i : ℕ) => a + (i : ℚ) * (b - a) / ((k : ℚ) - 1)

/-- Rounding to the nearest integer (half up), modelling numpy `round`. -/
def roundQ (q : ℚ) : ℤ := ⌊q + 1 / 2⌋

/-- Modelled from the spec: `make_ddim_timesteps` from the missing `utils`
module, uniform mode — `round(linspace(0, total-1, requested_steps))`,
deduplicated, +1 offset (spec section 4.2). -/
def make_ddim_timesteps (num_ddim_timesteps num_ddpm_timesteps : ℕ) : List ℕ :=
  (((linspace 0 ((num_ddpm_timesteps : ℚ) - 1) num_ddim_timesteps).map
    fun q => (roundQ q).toNat).dedup).map (· + 1)

/-- Modelled from the spec: `make_beta_schedule("linear", ...)` from the missing
`utils` module — linear interpolation in the square-root domain between the two
bounds, then squared (spec section 4.1). -/
def make_beta_schedule (S : Services) (n : ℕ) (linear_start linear_end : ℚ) : List ℚ :=
  (linspace (S.sqrt linear_start) (S.sqrt linear_end) n).map fun b => b ^ 2

/-- numpy `cumprod`: entry i is the product of the first i+1 entries. -/
def cumprod (l : List ℚ) : List ℚ :=
  (List.range l.length).map fun i => (l.take (i + 1)).prod

/-- Modelled from the spec: `make_ddim_sampling_parameters` from the missing
`utils` module — select the cumulative alphas at the chosen timesteps, shift for
the previous-step table, and derive eta-scaled sigmas (spec section 4.1);
returns (sigmas, alphas, alphas_prev). -/
def make_ddim_sampling_parameters (S : Services) (alphacums : List ℚ)
    (ddim_timesteps : List ℕ) (eta : ℚ) : List ℚ × List ℚ × List ℚ :=
  let alphas := ddim_timesteps.map fun t => alphacums.getD t 0
  let alphas_prev := alphacums.getD 0 0 :: alphas.dropLast
  let sigmas := List.zipWith
    (fun a aprev => eta * S.sqrt ((1 - aprev) / (1 - a) * (1 - a / aprev))) alphas alphas_prev
  (sigmas, alphas, alphas_prev)

/-- The buffers registered by `AbstractBaseSampler.make_schedule` (lines 44-90). -/
structure Schedule where
  ddim_timesteps : List ℕ
  betas : List ℚ
  alphas_cumprod : List ℚ
  alphas_cumprod_prev : List ℚ
  sqrt_alphas_cumprod : List ℚ
  sqrt_one_minus_alphas_cumprod : List ℚ
  log_one_minus_alphas_cumprod : List ℚ
  sqrt_recip_alphas_cumprod : List ℚ
  sqrt_recipm1_alphas_cumprod : List ℚ
  ddim_sigmas : List ℚ
  ddim_alphas : List ℚ
  ddim_alphas_prev : List ℚ
  ddim_sqrt_one_minus_alphas : List ℚ
  ddim_sigmas_for_original_num_steps : List ℚ

/-- `AbstractBaseSampler.make_schedule` (lines 44-90); the only failure is the
cumulative-alpha length assert (line 62), checked before the ddim parameter
derivation. -/
def make_schedule (S : Services) (ddpm_num_timesteps ddim_num_steps : ℕ)
    (ddim_eta : ℚ) : Except Err Schedule :=
  let tsteps := make_ddim_timesteps ddim_num_steps ddpm_num_timesteps
  let betas := make_beta_schedule S ddpm_num_timesteps 0.00085 0.0120
  let alphas := betas.map fun b => 1 - b
  let alphas_cumprod := cumprod alphas
  let alphas_cumprod_prev := 1 :: alphas_cumprod.dropLast
  if alphas_cumprod.length = ddpm_num_timesteps then
    let p := make_ddim_sampling_parameters S alphas_cumprod tsteps ddim_eta
    .ok
      { ddim_timesteps := tsteps
        betas := betas
        alphas_cumprod := alphas_cumprod
        alphas_cumprod_prev := alphas_cumprod_prev
        sqrt_alphas_cumprod := alphas_cumprod.map S.sqrt
        sqrt_one_minus_alphas_cumprod := alphas_cumprod.map fun a => S.sqrt (1 - a)
        log_one_minus_alphas_cumprod := alphas_cumprod.map fun a => S.log (1 - a)
        sqrt_recip_alphas_cumprod := alphas_cumprod.map fun a => S.sqrt (1 / a)
        sqrt_recipm1_alphas_cumprod := alphas_cumprod.map fun a => S.sqrt (1 / a - 1)
        ddim_sigmas := p.1
        ddim_alphas := p.2.1
        ddim_alphas_prev := p.2.2
        ddim_sqrt_one_minus_alphas := p.2.1.map fun a => S.sqrt (1 - a)
        ddim_sigmas_for_original_num_steps :=
          List.zipWith
            (fun ac acp => ddim_eta * S.sqrt ((1 - acp) / (1 - ac) * (1 - ac / acp)))
            alphas_cumprod alphas_cumprod_prev }
  else .error .alphasLengthMismatch

/-- `PLMSSampler.make_schedule` (lines 352-355): reject a nonzero eta before
delegating to the base schedule builder with eta forced to 0. -/
def plms_make_schedule (S : Services) (ddim_num_steps : ℕ) (ddim_eta : ℚ) :
    Except Err Schedule :=
  if ddim_eta ≠ 0 then .error .etaNonzeroForPLMS
  else make_schedule S 1000 ddim_num_steps 0

/-- The per-index lookup tables a built schedule provides to the reconstruction
sub-step when `use_original_steps` is false. -/
def Schedule.ddimCoeffs (sch : Schedule) : CoeffTables :=
  ⟨fun i => sch.ddim_alphas.getD i 0, fun i => sch.ddim_alphas_prev.getD i 0,
    fun i => sch.ddim_sqrt_one_minus_alphas.getD i 0, fun i => sch.ddim_sigmas.getD i 0⟩

/-- `PLMSSampler` driven through `AbstractBaseSampler.sample` (lines 96-158):
build the schedule first (`make_schedule`, line 134), then run `sampling_fn`
with `ddim_use_original_steps=False`.  A schedule error therefore surfaces with
an all-zero trace: no model was invoked. -/
def plms_sample (S : Services) (ddim_num_steps : ℕ) (eta : ℚ) (ps : SamplingParams) :
    Except Err ℚ × Trace :=
  match plms_make_schedule S ddim_num_steps eta with
  | .error e => (.error e, Trace.zero)
  | .ok sch =>
    match sampling_fn S sch.ddimCoeffs sch.ddim_timesteps
        { ps with kind := .PLMS, ddim_use_original_steps := false } with
    | (st, some e) => (.error e, st.trace)
    | (st, none) => (.ok st.img, st.trace)

/-! ### Instrumentation lemmas -/

@[simp]
theorem Trace.add_denoiserCalls (a b : Trace) :
    (a + b).denoiserCalls = a.denoiserCalls + b.denoiserCalls := rfl

@[simp]
theorem Trace.add_controlCalls (a b : Trace) :
    (a + b).controlCalls = a.controlCalls + b.controlCalls := rfl

@[simp]
theorem Trace.add_applyModelCalls (a b : Trace) :
    (a + b).applyModelCalls = a.applyModelCalls + b.applyModelCalls := rfl

@[simp]
theorem Trace.add_evaluatorCalls (a b : Trace) :
    (a + b).evaluatorCalls = a.evaluatorCalls + b.evaluatorCalls := rfl

@[simp]
theorem Trace.add_noiseDraws (a b : Trace) :
    (a + b).noiseDraws = a.noiseDraws + b.noiseDraws := rfl

/-- Every `apply_model` call performs exactly one `apply_model` invocation, no
evaluator invocation, and no noise draw. -/
theorem apply_model_trace (S : Services) (x : ℚ) (t : ℕ) (cond : Cond)
    (cs : Option (List ℚ)) :
    (apply_model S x t cond cs).2.applyModelCalls = 1 ∧
    (apply_model S x t cond cs).2.evaluatorCalls = 0 ∧
    (apply_model S x t cond cs).2.noiseDraws = 0 := by
  obtain ⟨cc, hc⟩ := cond
  rcases hc with _ | hint
  · rcases cs with _ | scales <;> exact ⟨rfl, rfl, rfl⟩
  · rcases cs with _ | scales
    · exact ⟨rfl, rfl, rfl⟩
    · simp only [apply_model]
      split <;> exact ⟨rfl, rfl, rfl⟩

/-- The guidance composition performs no evaluator invocation and no noise draw
of its own. -/
theorem guidance_branch_trace (S : Services) (x : ℚ) (t : ℕ) (uncond : Option Cond)
    (scale : ℚ) (c : Cond) (cs : Option (List ℚ)) :
    (guidance_branch S x t uncond scale c cs).2.evaluatorCalls = 0 ∧
    (guidance_branch S x t uncond scale c cs).2.noiseDraws = 0 := by
  rcases uncond with _ | uc
  · exact ⟨(apply_model_trace S x t c cs).2.1, (apply_model_trace S x t c cs).2.2⟩
  · simp only [guidance_branch]
    by_cases hs : scale = 1
    · simp only [if_pos hs]
      exact ⟨(apply_model_trace S x t c cs).2.1, (apply_model_trace S x t c cs).2.2⟩
    · simp only [if_neg hs]
      have h1 := apply_model_trace S x t c cs
      have h2 := apply_model_trace S x t uc cs
      rcases hc : apply_model S x t c cs with ⟨r1, tr1⟩
      rw [hc] at h1
      have h1e : tr1.evaluatorCalls = 0 := h1.2.1
      have h1n : tr1.noiseDraws = 0 := h1.2.2
      rcases r1 with e | v
      · exact ⟨h1e, h1n⟩
      · rcases hu : apply_model S x t uc cs with ⟨r2, tr2⟩
        rw [hu] at h2
        have h2e : tr2.evaluatorCalls = 0 := h2.2.1
        have h2n : tr2.noiseDraws = 0 := h2.2.2
        rcases r2 with e | w <;>
          exact ⟨by simp [h1e, h2e], by simp [h1n, h2n]⟩

/-- Every `_get_model_output` call performs exactly one evaluator invocation and
no noise draw. -/
theorem get_model_output_trace (S : Services) (x : ℚ) (t : ℕ) (uncond : Option Cond)
    (scale : ℚ) (corr : Option (ℚ → ℚ → ℕ → Cond → ℚ)) (c : Cond)
    (cs : Option (List ℚ)) :
    (get_model_output S x t uncond scale corr c cs).2.evaluatorCalls = 1 ∧
    (get_model_output S x t uncond scale corr c cs).2.noiseDraws = 0 := by
  simp only [get_model_output]
  have hb := guidance_branch_trace S x t uncond scale c cs
  rcases h : guidance_branch S x t uncond scale c cs with ⟨r, tr⟩
  rw [h] at hb
  have hb1 : tr.evaluatorCalls = 0 := hb.1
  have hb2 : tr.noiseDraws = 0 := hb.2
  rcases r with e | v
  · exact ⟨by simp [hb1], by simp [hb2]⟩
  · rcases corr with _ | f
    · exact ⟨by simp [hb1], by simp [hb2]⟩
    · by_cases hp : S.parameterization = .eps
      · exact ⟨by simp [hp, hb1], by simp [hp, hb2]⟩
      · exact ⟨by simp [hp, hb1], by simp [hp, hb2]⟩

/-! ### Test fixture used by the witnesses -/

/-- Concrete oracle services: the denoising model answers 2 on the conditional
context and 0 otherwise (the spec's guidance test vector), the control model
exposes two control outputs `control_0 = 1`, `control_1 = 2`. -/
def witnessServices : Services where
  modelLogits := fun _ _ ctx ctrl => if ctx = 1 then 2 else ctrl.sum
  controlInfer := fun _ _ _ _ => ⟨fun i => if i < 2 then some ((i : ℚ) + 1) else none, 4⟩
  q_sample := fun x0 t => x0 + t
  parameterization := .eps
  sqrt := fun q => q
  log := fun q => q
  noise := fun _ => 0
  dropout := fun q => q / 2
  randn := 1
  modelCoeffs := ⟨fun _ => 1, fun _ => 1, fun _ => 0, fun _ => 0⟩

/-! ### C1 — guidance composition of the guided denoise evaluator -/

/-- C1: for every call to `_get_model_output` (with no score corrector): if the
unconditional conditioning is `None` or the guidance scale equals 1.0, exactly
one `apply_model` invocation is made and its output is the returned derivative
estimate; otherwise exactly two invocations are made and the result equals
`uncond_out + scale * (cond_out - uncond_out)`. -/
theorem get_model_output_guidance (S : Services) (x : ℚ) (t : ℕ) (scale : ℚ)
    (c uc : Cond) (cs : Option (List ℚ)) (a b : ℚ) (tra trb : Trace)
    (hc : apply_model S x t c cs = (.ok a, tra))
    (hu : apply_model S x t uc cs = (.ok b, trb)) :
    (∀ uncond : Option Cond, uncond = none ∨ scale = 1 →
      get_model_output S x t uncond scale none c cs = (.ok a, ⟨0, 0, 0, 1, 0⟩ + tra) ∧
      (get_model_output S x t uncond scale none c cs).2.applyModelCalls = 1) ∧
    (scale ≠ 1 →
      get_model_output S x t (some uc) scale none c cs
        = (.ok (b + scale * (a - b)), ⟨0, 0, 0, 1, 0⟩ + (tra + trb)) ∧
      (get_model_output S x t (some uc) scale none c cs).2.applyModelCalls = 2) := by
  have hca : tra.applyModelCalls = 1 := by
    have h := (apply_model_trace S x t c cs).1; rw [hc] at h; exact h
  have hcb : trb.applyModelCalls = 1 := by
    have h := (apply_model_trace S x t uc cs).1; rw [hu] at h; exact h
  constructor
  · intro uncond h
    have e1 : get_model_output S x t uncond scale none c cs
        = (.ok a, ⟨0, 0, 0, 1, 0⟩ + tra) := by
      rcases h with h | h
      · subst h
        simp [get_model_output, guidance_branch, hc]
      · rcases uncond with _ | uc'
        · simp [get_model_output, guidance_branch, hc]
        · simp [get_model_output, guidance_branch, h, hc]
    exact ⟨e1, by rw [e1]; simp [hca]⟩
  · intro h
    have e2 : get_model_output S x t (some uc) scale none c cs
        = (.ok (b + scale * (a - b)), ⟨0, 0, 0, 1, 0⟩ + (tra + trb)) := by
      simp [get_model_output, guidance_branch, if_neg h, hc, hu]
    exact ⟨e2, by rw [e2]; simp [hca, hcb]⟩

/-- Witness for C1 at the spec's test vector (`cond_out = 2`, `uncond_out = 0`,
`scale = 3/2` ⇒ composed result `0 + 3/2 * (2 - 0) = 3`), plus the one-call case. -/
theorem get_model_output_guidance_witness :
    (get_model_output witnessServices 5 7 (some ⟨0, none⟩) (3 / 2) none ⟨1, none⟩ none
      = (.ok ((0 : ℚ) + 3 / 2 * (2 - 0)), ⟨0, 0, 0, 1, 0⟩ + (⟨1, 0, 1, 0, 0⟩ + ⟨1, 0, 1, 0, 0⟩)) ∧
      (get_model_output witnessServices 5 7 (some ⟨0, none⟩) (3 / 2) none ⟨1, none⟩
        none).2.applyModelCalls = 2) ∧
    (get_model_output witnessServices 5 7 none (3 / 2) none ⟨1, none⟩ none
      = (.ok (2 : ℚ), ⟨0, 0, 0, 1, 0⟩ + ⟨1, 0, 1, 0, 0⟩) ∧
      (get_model_output witnessServices 5 7 none (3 / 2) none ⟨1, none⟩
        none).2.applyModelCalls = 1) :=
  ⟨(get_model_output_guidance witnessServices 5 7 (3 / 2) ⟨1, none⟩ ⟨0, none⟩ none 2 0
      ⟨1, 0, 1, 0, 0⟩ ⟨1, 0, 1, 0, 0⟩ rfl rfl).2 (by norm_num),
    (get_model_output_guidance witnessServices 5 7 (3 / 2) ⟨1, none⟩ ⟨0, none⟩ none 2 0
      ⟨1, 0, 1, 0, 0⟩ ⟨1, 0, 1, 0, 0⟩ rfl rfl).1 none (Or.inl rfl)⟩

/-! ### C3 — the shared reconstruction sub-step -/

/-- C3: for every `_get_x_prev_and_pred_x0` call (on the no-dropout path), with
the coefficients looked up at the given index from the selected tables: the
predicted clean sample is `(x - sqrt_one_minus_at * e_t) / sqrt(a_t)`, the
direction term is `sqrt(1 - a_prev - sigma_t^2) * e_t`, the noise term is
`sigma_t * noise * temperature`, and the returned `x_prev` is
`sqrt(a_prev) * pred_x0 + direction + noise`. -/
theorem reconstruct_formula (S : Services) (dc : CoeffTables) (uo : Bool) (index : ℕ)
    (x e_t temperature noise_dropout : ℚ) (nidx : ℕ) (h : ¬ 0 < noise_dropout) :
    (get_x_prev_and_pred_x0 S dc uo index x e_t temperature noise_dropout nidx).1 =
      (let T := if uo then S.modelCoeffs else dc;
        (S.sqrt (T.alphas_prev index) *
            ((x - T.sqrt_one_minus_alphas index * e_t) / S.sqrt (T.alphas index)) +
          S.sqrt (1 - T.alphas_prev index - T.sigmas index ^ 2) * e_t +
          T.sigmas index * S.noise nidx * temperature,
         (x - T.sqrt_one_minus_alphas index * e_t) / S.sqrt (T.alphas index))) := by
  simp only [get_x_prev_and_pred_x0, if_neg h]

/-- Witness for C3 on concrete tables and inputs. -/
theorem reconstruct_formula_witness :
    ¬ (0 : ℚ) < 0 ∧
    (get_x_prev_and_pred_x0 witnessServices ⟨fun _ => 4, fun _ => 9, fun _ => 2, fun _ => 3⟩
        false 0 10 6 1 0 0).1 =
      (let T : CoeffTables := ⟨fun _ => 4, fun _ => 9, fun _ => 2, fun _ => 3⟩;
        (witnessServices.sqrt (T.alphas_prev 0) *
            ((10 - T.sqrt_one_minus_alphas 0 * 6) / witnessServices.sqrt (T.alphas 0)) +
          witnessServices.sqrt (1 - T.alphas_prev 0 - T.sigmas 0 ^ 2) * 6 +
          T.sigmas 0 * witnessServices.noise 0 * 1,
         (10 - T.sqrt_one_minus_alphas 0 * 6) / witnessServices.sqrt (T.alphas 0))) :=
  ⟨by decide,
    reconstruct_formula witnessServices ⟨fun _ => 4, fun _ => 9, fun _ => 2, fun _ => 3⟩
      false 0 10 6 1 0 0 (by decide)⟩

/-! ### C7 — control-scale length precondition in `apply_model` -/

/-- C7: for every `apply_model` call whose conditioning carries a structural
hint and whose `control_scales` list length differs from the number of probed
control outputs, the assertion error is raised with the control model called
but the denoising model not yet invoked; when the lengths match, each control
signal is multiplied by its positional scale entry and the denoising model is
invoked once on the scaled signals. -/
theorem apply_model_control_scales (S : Services) (x : ℚ) (t : ℕ) (cc hint : ℚ)
    (scales : List ℚ) :
    (scales.length ≠ (probeControls (S.controlInfer x t cc hint).entries 0
        (S.controlInfer x t cc hint).size).length →
      apply_model S x t ⟨cc, some hint⟩ (some scales)
        = (.error .controlScalesMismatch, ⟨0, 1, 1, 0, 0⟩)) ∧
    (scales.length = (probeControls (S.controlInfer x t cc hint).entries 0
        (S.controlInfer x t cc hint).size).length →
      apply_model S x t ⟨cc, some hint⟩ (some scales)
        = (.ok (S.modelLogits x t cc
            (List.zipWith (fun cv sc => cv * sc)
              (probeControls (S.controlInfer x t cc hint).entries 0
                (S.controlInfer x t cc hint).size) scales)), ⟨1, 1, 1, 0, 0⟩)) := by
  constructor
  · intro h
    simp [apply_model, if_neg h]
  · intro h
    simp [apply_model, if_pos h]

/-- Witness for C7: with two probed control outputs, a length-1 scale list
raises the assert before any denoiser call, and a length-2 scale list scales
positionally. -/
theorem apply_model_control_scales_witness :
    (apply_model witnessServices 5 7 ⟨3, some 11⟩ (some [5])
      = (.error .controlScalesMismatch, ⟨0, 1, 1, 0, 0⟩)) ∧
    (apply_model witnessServices 5 7 ⟨3, some 11⟩ (some [5, 7])
      = (.ok (witnessServices.modelLogits 5 7 3
          (List.zipWith (fun cv sc => cv * sc)
            (probeControls (witnessServices.controlInfer 5 7 3 11).entries 0
              (witnessServices.controlInfer 5 7 3 11).size) [5, 7])), ⟨1, 1, 1, 0, 0⟩)) :=
  ⟨(apply_model_control_scales witnessServices 5 7 3 11 [5]).1 (by decide),
    (apply_model_control_scales witnessServices 5 7 3 11 [5, 7]).2 (by decide)⟩

/-- Whatever the sampler kind and the step outcome, one `driver_integrate` call
hands the integrator exactly the current state (recorded in the ghost log). -/
theorem driver_integrate_inputs (S : Services) (dc : CoeffTables) (ps : SamplingParams)
    (total_steps index step ts_next : ℕ) (st : LoopState) :
    (driver_integrate S dc ps total_steps index step ts_next st).1.integratorInputs
      = st.integratorInputs ++ [st.img] := by
  unfold driver_integrate
  cases ps.kind
  · rcases plms_p_sampling_fn S dc st.img ps.cond step index ps.ddim_use_original_steps
        ps.temperature ps.noise_dropout ps.score_corrector ps.unconditional_guidance_scale
        ps.unconditional_conditioning st.old_eps ts_next ps.control_scales
        st.trace.noiseDraws with ⟨r, tr⟩
    rcases r with e | v
    · rfl
    · obtain ⟨xp, p0, et⟩ := v
      dsimp only
      unfold logIntermediates
      split <;> rfl
  · rcases ddim_p_sampling_fn S dc st.img ps.cond step index ps.ddim_use_original_steps
        ps.temperature ps.noise_dropout ps.score_corrector ps.unconditional_guidance_scale
        ps.unconditional_conditioning ps.control_scales st.trace.noiseDraws with ⟨r, tr⟩
    rcases r with e | v
    · rfl
    · obtain ⟨xp, p0⟩ := v
      dsimp only
      unfold logIntermediates
      split <;> rfl

/-! ### C8 — inpainting mask blend -/

/-- C8: in every loop iteration with a mask and known-clean pixels supplied, the
state handed to the integrator is `img_orig * mask + (1 - mask) * img` with
`img_orig` the forward-noised known pixels; a zero mask leaves the state
unchanged and an all-ones mask replaces it by the forward-noised known pixels. -/
theorem mask_blend_applied (S : Services) (dc : CoeffTables) (ps : SamplingParams)
    (time_range : List ℕ) (total_steps i step : ℕ) (st : LoopState) (m v : ℚ)
    (hm : ps.mask = some m) (h0 : ps.x0 = some v) :
    ((driver_iteration S dc ps time_range total_steps i step st).1.integratorInputs
      = st.integratorInputs ++ [maskBlend (S.q_sample v step) m st.img]) ∧
    (∀ o y : ℚ, maskBlend o 0 y = y) ∧
    (∀ o y : ℚ, maskBlend o 1 y = o) := by
  refine ⟨?_, fun o y => by simp [maskBlend], fun o y => by simp [maskBlend]⟩
  simp only [driver_iteration, hm, h0]
  exact driver_integrate_inputs S dc ps total_steps (total_steps - i - 1) step
    (time_range.getD (min (i + 1) (time_range.length - 1)) 0)
    { st with img := maskBlend (S.q_sample v step) m st.img }

/-- Concrete sampling parameters used by witnesses: PLMS, mask `1`, known
pixels `3`, no guidance, no corrector. -/
def witnessParams : SamplingParams where
  kind := .PLMS
  cond := ⟨1, none⟩
  x_T := some 2
  ddim_use_original_steps := false
  timestepsArg := none
  mask := some 1
  x0 := some 3
  log_every_t := 100
  temperature := 1
  noise_dropout := 0
  score_corrector := none
  unconditional_guidance_scale := 1
  unconditional_conditioning := none
  control_scales := none

/-- Concrete coefficient tables used by witnesses. -/
def witnessTables : CoeffTables := ⟨fun _ => 4, fun _ => 9, fun _ => 2, fun _ => 3⟩

/-- Witness for C8 on a concrete iteration. -/
theorem mask_blend_applied_witness :
    ((driver_iteration witnessServices witnessTables witnessParams [5] 1 0 5
        ⟨2, [], [], [], [2], [2], Trace.zero⟩).1.integratorInputs
      = [] ++ [maskBlend (witnessServices.q_sample 3 5) 1 2]) ∧
    (∀ o y : ℚ, maskBlend o 0 y = y) ∧
    (∀ o y : ℚ, maskBlend o 1 y = o) :=
  mask_blend_applied witnessServices witnessTables witnessParams [5] 1 0 5
    ⟨2, [], [], [], [2], [2], Trace.zero⟩ 1 3 rfl rfl

/-! ### C9 — proportional re-slicing of a truncated run -/

/-- C9: for a truncated run (`timesteps = n'` supplied to the driver with
original-steps mode off), the traversed ascending sequence is the already-built
plan re-sliced as the prefix `plan[:int(min(n'/len(plan), 1) * len(plan)) - 1]`
(no re-derivation); evaluated exactly, that is the prefix of length
`min n' len(plan) - 1`, a prefix-consistent subsequence of the full plan. -/
theorem truncated_plan_reslice (plan : List ℕ) (n' : ℕ) (h1 : 1 ≤ n')
    (h2 : 1 ≤ plan.length) :
    (effectiveTimesteps plan 1000 (some n') false
      = pySliceTo plan
          (pyInt (min ((n' : ℚ) / (plan.length : ℚ)) 1 * (plan.length : ℚ)) - 1)) ∧
    (effectiveTimesteps plan 1000 (some n') false = plan.take (min n' plan.length - 1)) ∧
    ((effectiveTimesteps plan 1000 (some n') false) <+: plan) := by
  have hdef : effectiveTimesteps plan 1000 (some n') false
      = pySliceTo plan
          (pyInt (min ((n' : ℚ) / (plan.length : ℚ)) 1 * (plan.length : ℚ)) - 1) := rfl
  have hnpos : (0 : ℚ) < (plan.length : ℚ) := by exact_mod_cast h2
  have key : pyInt (min ((n' : ℚ) / (plan.length : ℚ)) 1 * (plan.length : ℚ))
      = ((min n' plan.length : ℕ) : ℤ) := by
    rcases le_or_lt n' plan.length with h | h
    · have hle : (n' : ℚ) / (plan.length : ℚ) ≤ 1 := by
        rw [div_le_one hnpos]; exact_mod_cast h
      rw [min_eq_left hle, div_mul_cancel₀ _ (ne_of_gt hnpos)]
      unfold pyInt
      rw [if_pos (by positivity), Int.floor_natCast]
      omega
    · have hgt : (1 : ℚ) < (n' : ℚ) / (plan.length : ℚ) := by
        rw [lt_div_iff₀ hnpos, one_mul]; exact_mod_cast h
      rw [min_eq_right (le_of_lt hgt), one_mul]
      unfold pyInt
      rw [if_pos (by positivity), Int.floor_natCast]
      omega
  have hmin1 : 1 ≤ min n' plan.length := le_min h1 h2
  have htake : effectiveTimesteps plan 1000 (some n') false
      = plan.take (min n' plan.length - 1) := by
    rw [hdef, key]
    unfold pySliceTo
    rw [if_pos (by omega : (0 : ℤ) ≤ ((min n' plan.length : ℕ) : ℤ) - 1)]
    congr 1
    omega
  exact ⟨hdef, htake, htake ▸ ⟨plan.drop (min n' plan.length - 1),
    List.take_append_drop _ _⟩⟩

/-- Witness for C9 on a concrete plan. -/
theorem truncated_plan_reslice_witness :
    (effectiveTimesteps [3, 5, 7, 9] 1000 (some 2) false
      = pySliceTo [3, 5, 7, 9]
          (pyInt (min ((2 : ℚ) / ((4 : ℕ) : ℚ)) 1 * ((4 : ℕ) : ℚ)) - 1)) ∧
    (effectiveTimesteps [3, 5, 7, 9] 1000 (some 2) false
      = [3, 5, 7, 9].take (min 2 (List.length [3, 5, 7, 9]) - 1)) ∧
    ((effectiveTimesteps [3, 5, 7, 9] 1000 (some 2) false) <+: [3, 5, 7, 9]) :=
  truncated_plan_reslice [3, 5, 7, 9] 2 (by decide) (by decide)

/-! ### C10 — mask without known pixels is an assertion failure -/

/-- C10: if a mask is supplied but `x0` is not, the first loop iteration fails
with the assertion error, leaving the state untouched — no blend is applied and
the integrator is never called; at the `sampling_fn` level a run over a
nonempty step sequence therefore ends in the assertion error with an all-zero
call trace and no integrator input recorded. -/
theorem mask_without_x0_assert (S : Services) (dc : CoeffTables)
    (ddim_timesteps : List ℕ) (ps : SamplingParams) (time_range : List ℕ)
    (total_steps step i : ℕ) (rest : List ℕ) (st : LoopState) (m : ℚ)
    (hm : ps.mask = some m) (h0 : ps.x0 = none) :
    (sampling_loop S dc ps time_range total_steps (step :: rest) i st
      = (st, some .maskWithoutX0)) ∧
    (effectiveTimesteps ddim_timesteps 1000 ps.timestepsArg ps.ddim_use_original_steps ≠ [] →
      (sampling_fn S dc ddim_timesteps ps).2 = some .maskWithoutX0 ∧
      (sampling_fn S dc ddim_timesteps ps).1.trace = Trace.zero ∧
      (sampling_fn S dc ddim_timesteps ps).1.integratorInputs = []) := by
  have hiter : ∀ (tr : List ℕ) (tot j s : ℕ) (st' : LoopState),
      driver_iteration S dc ps tr tot j s st' = (st', some .maskWithoutX0) := by
    intro tr tot j s st'
    simp [driver_iteration, hm, h0]
  have hloop : ∀ (tr : List ℕ) (tot s : ℕ) (rest' : List ℕ) (j : ℕ) (st' : LoopState),
      sampling_loop S dc ps tr tot (s :: rest') j st' = (st', some .maskWithoutX0) := by
    intro tr tot s rest' j st'
    simp [sampling_loop, hiter]
  refine ⟨hloop _ _ _ _ _ _, fun hne => ?_⟩
  simp only [sampling_fn]
  rcases hts : (effectiveTimesteps ddim_timesteps 1000 ps.timestepsArg
      ps.ddim_use_original_steps).reverse with _ | ⟨a, l⟩
  · exact absurd (List.reverse_eq_nil_iff.mp hts) hne
  · rw [hloop]
    exact ⟨rfl, rfl, rfl⟩

/-- Witness parameters for C10: a mask supplied without known pixels. -/
def witnessParamsNoX0 : SamplingParams := { witnessParams with x0 := none }

/-- Witness for C10 on a concrete run. -/
theorem mask_without_x0_assert_witness :
    (sampling_loop witnessServices witnessTables witnessParamsNoX0 [5] 1 [5] 0
        ⟨2, [], [], [], [2], [2], Trace.zero⟩
      = (⟨2, [], [], [], [2], [2], Trace.zero⟩, some .maskWithoutX0)) ∧
    ((sampling_fn witnessServices witnessTables [3] witnessParamsNoX0).2
        = some .maskWithoutX0 ∧
      (sampling_fn witnessServices witnessTables [3] witnessParamsNoX0).1.trace
        = Trace.zero ∧
      (sampling_fn witnessServices witnessTables [3] witnessParamsNoX0).1.integratorInputs
        = []) :=
  ⟨(mask_without_x0_assert witnessServices witnessTables [3] witnessParamsNoX0 [5] 1 5 0 []
      ⟨2, [], [], [], [2], [2], Trace.zero⟩ 1 rfl rfl).1,
    (mask_without_x0_assert witnessServices witnessTables [3] witnessParamsNoX0 [5] 1 5 0 []
      ⟨2, [], [], [], [2], [2], Trace.zero⟩ 1 rfl rfl).2 (by decide)⟩

/-! ### C4 — bounded FIFO history -/

/-- One step of the driver's history update against the ghost log: appending to
the 3-suffix of the log and evicting at length 4 yields the 3-suffix of the
extended log. -/
theorem historyUpdate_drop (l : List ℚ) (e : ℚ) :
    historyUpdate (l.drop (l.length - 3)) e = (l ++ [e]).drop ((l ++ [e]).length - 3) := by
  rcases le_or_lt l.length 2 with h | h
  · have h3 : l.length - 3 = 0 := by omega
    have h4 : (l ++ [e]).length - 3 = 0 := by simp; omega
    rw [h3, h4, List.drop_zero, List.drop_zero]
    unfold historyUpdate
    rw [if_neg (by simp; omega)]
  · have hlt : l.length - 3 < l.length := by omega
    have hstep : l.length - 3 + 1 = l.length - 2 := by omega
    unfold historyUpdate
    rw [if_pos (by simp [List.length_drop]; omega)]
    rw [List.drop_eq_getElem_cons hlt, hstep]
    have h4 : (l ++ [e]).length - 3 = l.length - 2 := by
      simp only [List.length_append, List.length_cons, List.length_nil]
      omega
    rw [h4, List.drop_append_of_le_length (by omega), List.cons_append, List.tail_cons]

/-- `logIntermediates` only appends to the diagnostic logs. -/
theorem logIntermediates_fields (ps : SamplingParams) (total_steps index : ℕ) (p0 : ℚ)
    (st : LoopState) :
    (logIntermediates ps total_steps index p0 st).old_eps = st.old_eps ∧
    (logIntermediates ps total_steps index p0 st).allEts = st.allEts ∧
    (logIntermediates ps total_steps index p0 st).integratorInputs = st.integratorInputs ∧
    (logIntermediates ps total_steps index p0 st).img = st.img ∧
    (logIntermediates ps total_steps index p0 st).trace = st.trace := by
  unfold logIntermediates
  split <;> exact ⟨rfl, rfl, rfl, rfl, rfl⟩

/-- `driver_integrate` preserves the history/ghost-log relation. -/
theorem driver_integrate_hist (S : Services) (dc : CoeffTables) (ps : SamplingParams)
    (total_steps index step ts_next : ℕ) (st : LoopState)
    (h : st.old_eps = st.allEts.drop (st.allEts.length - 3)) :
    (driver_integrate S dc ps total_steps index step ts_next st).1.old_eps
      = (driver_integrate S dc ps total_steps index step ts_next st).1.allEts.drop
          ((driver_integrate S dc ps total_steps index step ts_next st).1.allEts.length
            - 3) := by
  unfold driver_integrate
  cases ps.kind
  · rcases plms_p_sampling_fn S dc st.img ps.cond step index ps.ddim_use_original_steps
        ps.temperature ps.noise_dropout ps.score_corrector ps.unconditional_guidance_scale
        ps.unconditional_conditioning st.old_eps ts_next ps.control_scales
        st.trace.noiseDraws with ⟨r, tr⟩
    rcases r with e | v
    · exact h
    · obtain ⟨xp, p0, et⟩ := v
      dsimp only
      have hf := logIntermediates_fields ps total_steps index p0
        { st with
          img := xp
          integratorInputs := st.integratorInputs ++ [st.img]
          trace := st.trace + tr
          old_eps := historyUpdate st.old_eps et
          allEts := st.allEts ++ [et] }
      rw [hf.1, hf.2.1]
      dsimp only
      rw [h]
      exact historyUpdate_drop st.allEts et
  · rcases ddim_p_sampling_fn S dc st.img ps.cond step index ps.ddim_use_original_steps
        ps.temperature ps.noise_dropout ps.score_corrector ps.unconditional_guidance_scale
        ps.unconditional_conditioning ps.control_scales st.trace.noiseDraws with ⟨r, tr⟩
    rcases r with e | v
    · exact h
    · obtain ⟨xp, p0⟩ := v
      dsimp only
      have hf := logIntermediates_fields ps total_steps index p0
        { st with
          img := xp
          integratorInputs := st.integratorInputs ++ [st.img]
          trace := st.trace + tr }
      rw [hf.1, hf.2.1]
      exact h

/-- One driver iteration preserves the history/ghost-log relation. -/
theorem driver_iteration_hist (S : Services) (dc : CoeffTables) (ps : SamplingParams)
    (time_range : List ℕ) (total_steps i step : ℕ) (st : LoopState)
    (h : st.old_eps = st.allEts.drop (st.allEts.length - 3)) :
    (driver_iteration S dc ps time_range total_steps i step st).1.old_eps
      = (driver_iteration S dc ps time_range total_steps i step st).1.allEts.drop
          ((driver_iteration S dc ps time_range total_steps i step st).1.allEts.length
            - 3) := by
  unfold driver_iteration
  rcases ps.mask with _ | m
  · exact driver_integrate_hist S dc ps total_steps (total_steps - i - 1) step
      (time_range.getD (min (i + 1) (time_range.length - 1)) 0) st h
  · rcases ps.x0 with _ | v
    · exact h
    · exact driver_integrate_hist S dc ps total_steps (total_steps - i - 1) step
        (time_range.getD (min (i + 1) (time_range.length - 1)) 0)
        { st with img := maskBlend (S.q_sample v step) m st.img } h

/-- The whole sampling loop preserves the history/ghost-log relation. -/
theorem sampling_loop_hist (S : Services) (dc : CoeffTables) (ps : SamplingParams)
    (time_range : List ℕ) (total_steps : ℕ) (steps : List ℕ) :
    ∀ (i : ℕ) (st : LoopState),
      st.old_eps = st.allEts.drop (st.allEts.length - 3) →
      (sampling_loop S dc ps time_range total_steps steps i st).1.old_eps
        = (sampling_loop S dc ps time_range total_steps steps i st).1.allEts.drop
            ((sampling_loop S dc ps time_range total_steps steps i st).1.allEts.length
              - 3) := by
  induction steps with
  | nil => intro i st h; exact h
  | cons step rest ih =>
    intro i st h
    simp only [sampling_loop]
    rcases hd : driver_iteration S dc ps time_range total_steps i step st with ⟨st', e⟩
    have h' := driver_iteration_hist S dc ps time_range total_steps i step st h
    rw [hd] at h'
    rcases e with _ | err
    · exact ih (i + 1) st' h'
    · exact h'

/-- C4: throughout every PLMS sampling run, after each iteration's history
update the buffer is the 3-suffix of the log of all raw estimates so far; hence
it holds at most 3 entries, grows as `min (number appended) 3`, and eviction is
FIFO — when 4 estimates have been produced the buffer is the log's tail, i.e.
the oldest of the first 4 has been removed. -/
theorem plms_history_bounded_fifo (S : Services) (dc : CoeffTables) (ps : SamplingParams)
    (time_range : List ℕ) (total_steps : ℕ) (steps : List ℕ) (i : ℕ) (st : LoopState)
    (_hk : ps.kind = .PLMS)
    (h : st.old_eps = st.allEts.drop (st.allEts.length - 3)) :
    ((sampling_loop S dc ps time_range total_steps steps i st).1.old_eps
      = (sampling_loop S dc ps time_range total_steps steps i st).1.allEts.drop
          ((sampling_loop S dc ps time_range total_steps steps i st).1.allEts.length
            - 3)) ∧
    ((sampling_loop S dc ps time_range total_steps steps i st).1.old_eps.length
      = min (sampling_loop S dc ps time_range total_steps steps i st).1.allEts.length 3) ∧
    ((sampling_loop S dc ps time_range total_steps steps i st).1.allEts.length = 4 →
      (sampling_loop S dc ps time_range total_steps steps i st).1.old_eps
        = (sampling_loop S dc ps time_range total_steps steps i st).1.allEts.tail) := by
  have h1 := sampling_loop_hist S dc ps time_range total_steps steps i st h
  refine ⟨h1, ?_, ?_⟩
  · rw [h1, List.length_drop]
    omega
  · intro h4
    rw [h1, h4]
    exact List.drop_one _

/-- Witness for C4: a concrete five-step PLMS run from the clean initial state. -/
theorem plms_history_bounded_fifo_witness :
    ((sampling_loop witnessServices witnessTables witnessParams [9, 8, 7, 6, 5] 5
        [9, 8, 7, 6, 5] 0 ⟨2, [], [], [], [2], [2], Trace.zero⟩).1.old_eps
      = (sampling_loop witnessServices witnessTables witnessParams [9, 8, 7, 6, 5] 5
          [9, 8, 7, 6, 5] 0 ⟨2, [], [], [], [2], [2], Trace.zero⟩).1.allEts.drop
          ((sampling_loop witnessServices witnessTables witnessParams [9, 8, 7, 6, 5] 5
            [9, 8, 7, 6, 5] 0 ⟨2, [], [], [], [2], [2], Trace.zero⟩).1.allEts.length - 3)) ∧
    ((sampling_loop witnessServices witnessTables witnessParams [9, 8, 7, 6, 5] 5
        [9, 8, 7, 6, 5] 0 ⟨2, [], [], [], [2], [2], Trace.zero⟩).1.old_eps.length
      = min (sampling_loop witnessServices witnessTables witnessParams [9, 8, 7, 6, 5] 5
          [9, 8, 7, 6, 5] 0 ⟨2, [], [], [], [2], [2], Trace.zero⟩).1.allEts.length 3) ∧
    ((sampling_loop witnessServices witnessTables witnessParams [9, 8, 7, 6, 5] 5
        [9, 8, 7, 6, 5] 0 ⟨2, [], [], [], [2], [2], Trace.zero⟩).1.allEts.length = 4 →
      (sampling_loop witnessServices witnessTables witnessParams [9, 8, 7, 6, 5] 5
        [9, 8, 7, 6, 5] 0 ⟨2, [], [], [], [2], [2], Trace.zero⟩).1.old_eps
        = (sampling_loop witnessServices witnessTables witnessParams [9, 8, 7, 6, 5] 5
          [9, 8, 7, 6, 5] 0 ⟨2, [], [], [], [2], [2], Trace.zero⟩).1.allEts.tail) :=
  plms_history_bounded_fifo witnessServices witnessTables witnessParams [9, 8, 7, 6, 5] 5
    [9, 8, 7, 6, 5] 0 ⟨2, [], [], [], [2], [2], Trace.zero⟩ rfl rfl

/-! ### C5 — the raw derivative estimate is the value fed to the history -/

/-- Whenever a PLMS step returns successfully, the third component of its
result triple is the raw evaluator output at the step's input state. -/
theorem plms_third_eq (S : Services) (dc : CoeffTables) (x : ℚ) (c : Cond)
    (t index : ℕ) (uo : Bool) (temp nd : ℚ)
    (corr : Option (ℚ → ℚ → ℕ → Cond → ℚ)) (scale : ℚ) (uncond : Option Cond)
    (old_eps : List ℚ) (t_next : ℕ) (cs : Option (List ℚ)) (nidx : ℕ) (d : ℚ)
    (tr0 : Trace)
    (h0 : get_model_output S x t uncond scale corr c cs = (.ok d, tr0)) :
    ∀ (r : ℚ × ℚ × ℚ) (tr : Trace),
      plms_p_sampling_fn S dc x c t index uo temp nd corr scale uncond old_eps
        t_next cs nidx = (.ok r, tr) → r.2.2 = d := by
  intro r tr hr
  simp only [plms_p_sampling_fn, h0] at hr
  split at hr
  · simp at hr
  · rw [Prod.mk.injEq, Except.ok.injEq] at hr
    rw [← hr.1]

/-- C5: in every PLMS iteration (no mask), the value appended to the history
buffer (and logged in `allEts`) is the original uncombined derivative estimate
produced by the evaluator at the current state — carried as the third element
of the triple returned by the PLMS step. -/
theorem plms_appends_raw_estimate (S : Services) (dc : CoeffTables) (ps : SamplingParams)
    (time_range : List ℕ) (total_steps i step : ℕ) (st : LoopState) (d : ℚ) (tr0 : Trace)
    (hk : ps.kind = .PLMS) (hm : ps.mask = none)
    (h0 : get_model_output S st.img step ps.unconditional_conditioning
        ps.unconditional_guidance_scale ps.score_corrector ps.cond ps.control_scales
      = (.ok d, tr0)) :
    (∀ (r : ℚ × ℚ × ℚ) (tr : Trace),
      plms_p_sampling_fn S dc st.img ps.cond step (total_steps - i - 1)
        ps.ddim_use_original_steps ps.temperature ps.noise_dropout ps.score_corrector
        ps.unconditional_guidance_scale ps.unconditional_conditioning st.old_eps
        (time_range.getD (min (i + 1) (time_range.length - 1)) 0) ps.control_scales
        st.trace.noiseDraws = (.ok r, tr) → r.2.2 = d) ∧
    (∀ st' : LoopState,
      driver_iteration S dc ps time_range total_steps i step st = (st', none) →
      st'.allEts = st.allEts ++ [d] ∧ st'.old_eps = historyUpdate st.old_eps d) := by
  constructor
  · exact plms_third_eq S dc st.img ps.cond step (total_steps - i - 1)
      ps.ddim_use_original_steps ps.temperature ps.noise_dropout ps.score_corrector
      ps.unconditional_guidance_scale ps.unconditional_conditioning st.old_eps
      (time_range.getD (min (i + 1) (time_range.length - 1)) 0) ps.control_scales
      st.trace.noiseDraws d tr0 h0
  · intro st' hst
    unfold driver_iteration at hst
    rw [hm] at hst
    unfold driver_integrate at hst
    rw [hk] at hst
    dsimp only at hst
    rcases hp : plms_p_sampling_fn S dc st.img ps.cond step (total_steps - i - 1)
        ps.ddim_use_original_steps ps.temperature ps.noise_dropout ps.score_corrector
        ps.unconditional_guidance_scale ps.unconditional_conditioning st.old_eps
        (time_range.getD (min (i + 1) (time_range.length - 1)) 0) ps.control_scales
        st.trace.noiseDraws with ⟨r, tr⟩
    rw [hp] at hst
    rcases r with e | v
    · simp at hst
    · obtain ⟨xp, p0, et⟩ := v
      have het : et = d := plms_third_eq S dc st.img ps.cond step (total_steps - i - 1)
        ps.ddim_use_original_steps ps.temperature ps.noise_dropout ps.score_corrector
        ps.unconditional_guidance_scale ps.unconditional_conditioning st.old_eps
        (time_range.getD (min (i + 1) (time_range.length - 1)) 0) ps.control_scales
        st.trace.noiseDraws d tr0 h0 (xp, p0, et) tr hp
      subst het
      rw [Prod.mk.injEq] at hst
      rw [← hst.1]
      have hf := logIntermediates_fields ps total_steps (total_steps - i - 1) p0
        { st with
          img := xp
          integratorInputs := st.integratorInputs ++ [st.img]
          trace := st.trace + tr
          old_eps := historyUpdate st.old_eps et
          allEts := st.allEts ++ [et] }
      exact ⟨hf.2.1, hf.1⟩

/-- Witness for C5 on a concrete iteration (no mask, trivial guidance). -/
def witnessParamsNoMask : SamplingParams := { witnessParams with mask := none, x0 := none }

/-- Witness for C5: at the concrete state, the evaluator output is 2, the
returned triple carries it, and the driver appends exactly it. -/
theorem plms_appends_raw_estimate_witness :
    (∀ (r : ℚ × ℚ × ℚ) (tr : Trace),
      plms_p_sampling_fn witnessServices witnessTables 2 ⟨1, none⟩ 9 (5 - 0 - 1) false 1 0
        none 1 none [] ([9, 8, 7, 6, 5].getD (min (0 + 1) ([9, 8, 7, 6, 5].length - 1)) 0)
        none 0 = (.ok r, tr) → r.2.2 = 2) ∧
    (∀ st' : LoopState,
      driver_iteration witnessServices witnessTables witnessParamsNoMask [9, 8, 7, 6, 5] 5 0 9
        ⟨2, [], [], [], [2], [2], Trace.zero⟩ = (st', none) →
      st'.allEts = [] ++ [2] ∧ st'.old_eps = historyUpdate [] 2) :=
  plms_appends_raw_estimate witnessServices witnessTables witnessParamsNoMask [9, 8, 7, 6, 5]
    5 0 9 ⟨2, [], [], [], [2], [2], Trace.zero⟩ 2 ⟨1, 0, 1, 1, 0⟩ rfl rfl rfl

/-! ### C2 — order selection of the PLMS step -/

theorem get_x_prev_trace_eq (S : Services) (dc : CoeffTables) (uo : Bool) (index : ℕ)
    (x e temp nd : ℚ) (nidx : ℕ) :
    (get_x_prev_and_pred_x0 S dc uo index x e temp nd nidx).2 = ⟨0, 0, 0, 0, 1⟩ := rfl

/-- C2: a PLMS step combines derivative estimates by history depth.  With the
evaluator returning `d` at the current state: at depth 0, a second evaluation
`d2` is taken at the next planned timestep on the provisionally reconstructed
state and the reconstruction uses `(d + d2) / 2` (two evaluator calls); at
depth 1 it uses `(3d - h[-1]) / 2`; at depth 2, `(23d - 16h[-1] + 5h[-2]) / 12`;
at depth ≥ 3, `(55d - 59h[-1] + 37h[-2] - 9h[-3]) / 24` (one evaluator call in
each multistep case). -/
theorem plms_order_selection (S : Services) (dc : CoeffTables) (x : ℚ) (c : Cond)
    (t index : ℕ) (uo : Bool) (temp nd : ℚ)
    (corr : Option (ℚ → ℚ → ℕ → Cond → ℚ)) (scale : ℚ) (uncond : Option Cond)
    (t_next : ℕ) (cs : Option (List ℚ)) (nidx : ℕ) (d : ℚ) (tr0 : Trace)
    (h0 : get_model_output S x t uncond scale corr c cs = (.ok d, tr0)) :
    (∀ (d2 : ℚ) (tr1 : Trace),
      get_model_output S
          (get_x_prev_and_pred_x0 S dc uo index x d temp nd nidx).1.1 t_next uncond
          scale corr c cs = (.ok d2, tr1) →
      (plms_p_sampling_fn S dc x c t index uo temp nd corr scale uncond [] t_next cs
          nidx).1
        = .ok ((get_x_prev_and_pred_x0 S dc uo index x ((d + d2) / 2) temp nd
              (nidx + 1)).1.1,
            (get_x_prev_and_pred_x0 S dc uo index x ((d + d2) / 2) temp nd
              (nidx + 1)).1.2, d) ∧
      (plms_p_sampling_fn S dc x c t index uo temp nd corr scale uncond [] t_next cs
          nidx).2.evaluatorCalls = 2) ∧
    (∀ old_eps : List ℚ, old_eps.length = 1 →
      (plms_p_sampling_fn S dc x c t index uo temp nd corr scale uncond old_eps t_next
          cs nidx).1
        = .ok ((get_x_prev_and_pred_x0 S dc uo index x ((3 * d - pyNeg old_eps 1) / 2)
              temp nd nidx).1.1,
            (get_x_prev_and_pred_x0 S dc uo index x ((3 * d - pyNeg old_eps 1) / 2)
              temp nd nidx).1.2, d) ∧
      (plms_p_sampling_fn S dc x c t index uo temp nd corr scale uncond old_eps t_next
          cs nidx).2.evaluatorCalls = 1) ∧
    (∀ old_eps : List ℚ, old_eps.length = 2 →
      (plms_p_sampling_fn S dc x c t index uo temp nd corr scale uncond old_eps t_next
          cs nidx).1
        = .ok ((get_x_prev_and_pred_x0 S dc uo index x
              ((23 * d - 16 * pyNeg old_eps 1 + 5 * pyNeg old_eps 2) / 12) temp nd
              nidx).1.1,
            (get_x_prev_and_pred_x0 S dc uo index x
              ((23 * d - 16 * pyNeg old_eps 1 + 5 * pyNeg old_eps 2) / 12) temp nd
              nidx).1.2, d) ∧
      (plms_p_sampling_fn S dc x c t index uo temp nd corr scale uncond old_eps t_next
          cs nidx).2.evaluatorCalls = 1) ∧
    (∀ old_eps : List ℚ, 3 ≤ old_eps.length →
      (plms_p_sampling_fn S dc x c t index uo temp nd corr scale uncond old_eps t_next
          cs nidx).1
        = .ok ((get_x_prev_and_pred_x0 S dc uo index x
              ((55 * d - 59 * pyNeg old_eps 1 + 37 * pyNeg old_eps 2
                - 9 * pyNeg old_eps 3) / 24) temp nd nidx).1.1,
            (get_x_prev_and_pred_x0 S dc uo index x
              ((55 * d - 59 * pyNeg old_eps 1 + 37 * pyNeg old_eps 2
                - 9 * pyNeg old_eps 3) / 24) temp nd nidx).1.2, d) ∧
      (plms_p_sampling_fn S dc x c t index uo temp nd corr scale uncond old_eps t_next
          cs nidx).2.evaluatorCalls = 1) := by
  have htr0 : tr0.evaluatorCalls = 1 := by
    have h := (get_model_output_trace S x t uncond scale corr c cs).1
    rw [h0] at h; exact h
  refine ⟨?_, ?_, ?_, ?_⟩
  · intro d2 tr1 h1
    have htr1 : tr1.evaluatorCalls = 1 := by
      have h := (get_model_output_trace S
        (get_x_prev_and_pred_x0 S dc uo index x d temp nd nidx).1.1 t_next uncond scale
        corr c cs).1
      rw [h1] at h; exact h
    have hn1 : tr1.noiseDraws = 0 := by
      have h := (get_model_output_trace S
        (get_x_prev_and_pred_x0 S dc uo index x d temp nd nidx).1.1 t_next uncond scale
        corr c cs).2
      rw [h1] at h; exact h
    constructor
    · simp only [plms_p_sampling_fn, h0, h1, List.length_nil]
      norm_num [hn1, get_x_prev_trace_eq]
    · simp only [plms_p_sampling_fn, h0, h1, List.length_nil]
      norm_num [htr0, htr1, hn1, get_x_prev_trace_eq]
  · intro old_eps hlen
    constructor
    · simp only [plms_p_sampling_fn, h0, hlen]
      norm_num [Trace.zero, get_x_prev_trace_eq]
    · simp only [plms_p_sampling_fn, h0, hlen]
      norm_num [Trace.zero, htr0, get_x_prev_trace_eq]
  · intro old_eps hlen
    constructor
    · simp only [plms_p_sampling_fn, h0, hlen]
      norm_num [Trace.zero, get_x_prev_trace_eq]
    · simp only [plms_p_sampling_fn, h0, hlen]
      norm_num [Trace.zero, htr0, get_x_prev_trace_eq]
  · intro old_eps hlen
    have hz : ¬ old_eps.length = 0 := by omega
    have h1 : ¬ old_eps.length = 1 := by omega
    have h2 : ¬ old_eps.length = 2 := by omega
    constructor
    · simp only [plms_p_sampling_fn, h0, if_neg hz, if_neg h1, if_neg h2]
      norm_num [Trace.zero, get_x_prev_trace_eq]
    · simp only [plms_p_sampling_fn, h0, if_neg hz, if_neg h1, if_neg h2]
      norm_num [Trace.zero, htr0, get_x_prev_trace_eq]

/-- Witness for C2 on a concrete depth-1 history. -/
theorem plms_order_selection_witness :
    (plms_p_sampling_fn witnessServices witnessTables 2 ⟨1, none⟩ 9 4 false 1 0 none 1 none
        [5] 8 none 0).1
      = .ok ((get_x_prev_and_pred_x0 witnessServices witnessTables false 4 2
            ((3 * 2 - pyNeg [5] 1) / 2) 1 0 0).1.1,
          (get_x_prev_and_pred_x0 witnessServices witnessTables false 4 2
            ((3 * 2 - pyNeg [5] 1) / 2) 1 0 0).1.2, 2) ∧
    (plms_p_sampling_fn witnessServices witnessTables 2 ⟨1, none⟩ 9 4 false 1 0 none 1 none
        [5] 8 none 0).2.evaluatorCalls = 1 :=
  (plms_order_selection witnessServices witnessTables 2 ⟨1, none⟩ 9 4 false 1 0 none 1 none
    8 none 0 2 ⟨1, 0, 1, 1, 0⟩ rfl).2.1 [5] (by decide)

/-! ### C6 — nonzero eta is rejected at PLMS schedule build, before any model call -/

theorem linspace_length (a b : ℚ) (k : ℕ) : (linspace a b k).length = k := by
  unfold linspace
  rw [List.length_map, List.length_range]

theorem make_beta_schedule_length (S : Services) (n : ℕ) (s e : ℚ) :
    (make_beta_schedule S n s e).length = n := by
  unfold make_beta_schedule
  rw [List.length_map, linspace_length]

theorem cumprod_length (l : List ℚ) : (cumprod l).length = l.length := by
  unfold cumprod
  rw [List.length_map, List.length_range]

/-- C6: with the PLMS sampler, any nonzero eta makes schedule construction fail
with the dedicated error, and the failure surfaces from the driver with an
all-zero call trace (before any model invocation); with eta equal to 0 the PLMS
schedule build succeeds. -/
theorem plms_eta_zero_precondition (S : Services) (ps : SamplingParams) (n : ℕ)
    (eta : ℚ) :
    (eta ≠ 0 →
      plms_make_schedule S n eta = .error .etaNonzeroForPLMS ∧
      plms_sample S n eta ps = (.error .etaNonzeroForPLMS, Trace.zero)) ∧
    (∃ sch, plms_make_schedule S n 0 = .ok sch) := by
  constructor
  · intro h
    have hs : plms_make_schedule S n eta = .error .etaNonzeroForPLMS := by
      unfold plms_make_schedule
      rw [if_pos h]
    exact ⟨hs, by unfold plms_sample; rw [hs]⟩
  · have hcond : (cumprod ((make_beta_schedule S 1000 0.00085 0.0120).map
        fun b => 1 - b)).length = 1000 := by
      rw [cumprod_length, List.length_map, make_beta_schedule_length]
    unfold plms_make_schedule
    rw [if_neg (by norm_num)]
    unfold make_schedule
    rw [if_pos hcond]
    exact ⟨_, rfl⟩

/-- Witness for C6 at the concrete eta = 1. -/
theorem plms_eta_zero_precondition_witness :
    (plms_make_schedule witnessServices 3 1 = .error .etaNonzeroForPLMS ∧
      plms_sample witnessServices 3 1 witnessParams
        = (.error .etaNonzeroForPLMS, Trace.zero)) ∧
    (∃ sch, plms_make_schedule witnessServices 3 0 = .ok sch) :=
  ⟨(plms_eta_zero_precondition witnessServices witnessParams 3 1).1 (by norm_num),
    (plms_eta_zero_precondition witnessServices witnessParams 3 1).2⟩

end ControlNetSampler
